import Mathlib

/-!
Verification development for the EchoLingua client
(src/echolingua-ai/App.tsx).

The file shallowly embeds the audio codec helpers, the playback
scheduler, the translation-session state machine and the one-shot
request handlers of App.tsx, and proves the testable properties stated
in the repository's specification against that embedding.

Modelling conventions:
* JS numbers are modelled as rationals (every value manipulated here is
  produced by exact arithmetic on small integers and powers of two, so
  the rational model is exact for the operations involved).
* `Int16Array` element assignment uses the ECMAScript `ToInt16`
  conversion: truncation toward zero followed by a wrap into the signed
  16-bit range.  `Int16Array` views share the byte buffer little-endian.
* The `encode`/`decode` helpers of App.tsx (lines 8-26) convert a byte
  array to a binary string and back around the `btoa`/`atob` builtins;
  since `atob (btoa s) = s` on binary strings, the composed transport
  `decode (encode bytes)` is the identity on byte lists, and the model
  carries the byte list itself.
-/

/-- JS `Math`-style truncation toward zero of a rational: floor for
nonnegative values, ceiling for negative ones.  This is the first step
of ECMAScript `ToInt16`. -/
def truncJS (x : ℚ) : ℤ := if 0 ≤ x then ⌊x⌋ else ⌈x⌉

/-- Second step of ECMAScript `ToInt16`: wrap an integer into the
signed 16-bit range `[-32768, 32767]`. -/
def toInt16 (v : ℤ) : ℤ :=
  if v % 65536 < 32768 then v % 65536 else v % 65536 - 65536

/-- Unsigned 16-bit representation (two's complement) of an integer,
used when reading the backing byte buffer of an `Int16Array`. -/
def uint16OfInt16 (v : ℤ) : ℕ := (v % 65536).toNat

/-- Reassemble a signed 16-bit value from its unsigned representation,
as `new Int16Array(buffer)` reads the bytes (App.tsx line 36). -/
def int16OfUint16 (u : ℕ) : ℤ := if u < 32768 then (u : ℤ) else (u : ℤ) - 65536

/-- Little-endian byte serialization of a list of signed 16-bit values:
the byte view of the `Int16Array` backing buffer built by `createBlob`
(App.tsx line 57, `new Uint8Array(int16.buffer)`). -/
def int16sToBytesLE : List ℤ → List ℕ
  | [] => []
  | v :: rest => uint16OfInt16 v % 256 :: uint16OfInt16 v / 256 :: int16sToBytesLE rest

/-- Little-endian read of a byte list as signed 16-bit values: the
`new Int16Array(data.buffer)` view taken by `decodeAudioData`
(App.tsx line 36).  A trailing odd byte has no 16-bit slot. -/
def bytesToInt16sLE : List ℕ → List ℤ
  | b0 :: b1 :: rest => int16OfUint16 (b0 + 256 * b1) :: bytesToInt16sLE rest
  | _ => []

/-- Model of `int16[i] = data[i] * 32768` in `createBlob` (App.tsx line 54):
scale and convert with ECMAScript `ToInt16` (no clamping). -/
def sampleToInt16 (x : ℚ) : ℤ := toInt16 (truncJS (x * 32768))

/-- Model of `createBlob` (App.tsx lines 50-60) restricted to its audio payload:
the byte buffer that is base64-wrapped into the blob.  The base64 step
is an invertible transport (see the module docstring) and is elided. -/
def createBlob (data : List ℚ) : List ℕ :=
  int16sToBytesLE (data.map sampleToInt16)

/-- The result of `ctx.createBuffer` after `decodeAudioData` fills it:
a sample rate and one float channel per requested channel. -/
structure AudioBuffer where
  sampleRate : ℚ
  channels : List (List ℚ)
deriving Repr, DecidableEq

/-- Model of `decodeAudioData` (App.tsx lines 30-47): view the bytes as 16-bit
samples, de-interleave per channel and normalize by 32768. -/
def decodeAudioData (data : List ℕ) (sampleRate : ℚ) (numChannels : ℕ) : AudioBuffer :=
  let dataInt16 := bytesToInt16sLE data
  let frameCount := dataInt16.length / numChannels
  { sampleRate := sampleRate
    channels := (List.range numChannels).map (fun channel =>
      (List.range frameCount).map (fun i =>
        ((dataInt16.getD (i * numChannels + channel) 0 : ℤ) : ℚ) / 32768)) }

/-- JS `text.trim()` results are only ever tested for truthiness in
App.tsx (lines 155, 199, 320, 438): the trimmed string is empty exactly
when every character of the original is whitespace, which is what this
computable test decides. -/
def isBlank (s : String) : Bool := s.data.all Char.isWhitespace

/-- The `AppSettings` interface (App.tsx lines 71-75).  The theme union
type is modelled by its string values. -/
structure AppSettings where
  theme : String
  volume : ℚ
  playbackRate : ℚ
deriving Repr, DecidableEq

/-- The dynamic shape `JSON.parse` can return for the stored settings
record: each expected field may be absent or of the wrong type (absence
and wrong type coincide for the checks the code performs). -/
structure ParsedSettings where
  theme : Option String
  volume : Option ℚ
  playbackRate : Option ℚ
deriving Repr, DecidableEq

/-- Model of `getInitialSettings` (App.tsx lines 77-98).  `saved` is the
`localStorage.getItem` result: `none` when the key is absent, and
otherwise the outcome of `JSON.parse` on the stored string (`.error`
when parsing throws). -/
def getInitialSettings (saved : Option (Except Unit ParsedSettings))
    (prefersDarkMode : Bool) : AppSettings :=
  match saved with
  | some (Except.ok parsed) =>
      { theme := if parsed.theme = some "dark" then "dark" else "light"
        volume := parsed.volume.getD 1
        playbackRate := parsed.playbackRate.getD 1 }
  | some (Except.error _) =>
      { theme := if prefersDarkMode then "dark" else "light", volume := 1, playbackRate := 1 }
  | none =>
      { theme := if prefersDarkMode then "dark" else "light", volume := 1, playbackRate := 1 }

deriving instance DecidableEq for Except

/-- The top-level `App` state relevant to settings persistence: the
React settings state together with the durable local record stored
under the `echoLinguaSettings` key. -/
structure AppState where
  settings : AppSettings
  storage : Option (Except Unit ParsedSettings)
deriving Repr, DecidableEq

/-- The theme toggle (App.tsx line 607), the only settings mutation in
the source: `setSettings(s => ({...s, theme: ...}))`.  The repository
contains no `localStorage.setItem` call, so the durable record is left
untouched by the update. -/
def toggleTheme (s : AppState) : AppState :=
  { s with settings :=
      { s.settings with theme := if s.settings.theme = "light" then "dark" else "light" } }

/-- A committed transcript entry (types.ts / App.tsx line 439). -/
structure TranscriptEntry where
  id : ℕ
  speaker : String
  text : String
deriving Repr, DecidableEq

/-- The `TranslationView` state (App.tsx lines 341-353): the React
state hooks and the mutable refs.  Opaque browser resources (stream,
script processor, audio contexts, live session) are modelled by
numeric handles; a `none` ref is a `null` ref. -/
structure TVState where
  isSessionActive : Bool
  transcripts : List TranscriptEntry
  interimTranscript : String
  sessionPromise : Option ℕ
  microphoneStream : Option ℕ
  scriptProcessor : Option ℕ
  inputAudioContext : Option ℕ
  outputAudioContext : Option ℕ
  nextStartTime : ℚ
  audioSources : Finset ℕ
  currentText : String
deriving DecidableEq

/-- Result of `handleStopSession`: the new state plus the ordered list
of external teardown operations performed. -/
structure StopResult where
  state : TVState
  effects : List String
deriving DecidableEq

/-- Model of `handleStopSession` (App.tsx lines 361-383): early return when the
session ref is already null; otherwise close the session (best-effort),
stop the microphone tracks, disconnect the processor, close both audio
contexts, null every ref and clear the active flag. -/
def handleStopSession (s : TVState) : StopResult :=
  if s.sessionPromise = none then
    { state := s, effects := [] }
  else
    { state := { s with
        sessionPromise := none
        microphoneStream := none
        scriptProcessor := none
        inputAudioContext := none
        outputAudioContext := none
        isSessionActive := false }
      effects := ["session.close", "stopTracks", "disconnectProcessor",
                  "closeInputContext", "closeOutputContext"] }

/-- Result of a failing `handleStartSession` attempt: the sequence of
states the component passes through and whether the alert fired. -/
structure StartFailResult where
  trace : List TVState
  alerted : Bool
deriving DecidableEq

/-- Model of `handleStartSession` (App.tsx lines 385-397 and 488-492) on the
path where `getUserMedia` rejects: the active flag is set and the
interim state reset first (lines 386-389); the rejection then reaches
the catch block, which alerts and clears the active flag (lines
488-492).  The trace lists the state after each of the two updates. -/
def handleStartSessionMicFail (s : TVState) : StartFailResult :=
  let s1 := { s with
    isSessionActive := true
    interimTranscript := ""
    currentText := ""
    nextStartTime := 0 }
  let s2 := { s1 with isSessionActive := false }
  { trace := [s1, s2], alerted := true }

/-- Model of `handleStartSession` (App.tsx lines 385-400) on the success path:
flags and buffers reset, then the stream, both audio contexts and the
live-session promise are installed. -/
def handleStartSessionSuccess (s : TVState)
    (streamId inCtx outCtx sessionId : ℕ) : TVState :=
  let s1 := { s with
    isSessionActive := true
    interimTranscript := ""
    currentText := ""
    nextStartTime := 0 }
  { s1 with
    microphoneStream := some streamId
    inputAudioContext := some inCtx
    outputAudioContext := some outCtx
    sessionPromise := some sessionId }

/-- The fields of a `LiveServerMessage` that the `onmessage` handler
(App.tsx lines 430-477) inspects.  A synthesized audio chunk is
abstracted to the duration of its decoded buffer (the only attribute
the scheduler uses); `none` models an absent or empty payload (JS
falsiness of the base64 string). -/
structure ServerMessage where
  inputTranscription : Option String
  turnComplete : Bool
  audioData : Option ℚ
  interrupted : Bool
deriving Repr, DecidableEq

/-- Result of one `onmessage` invocation: the new component state, the
start time passed to `sourceNode.start` when a chunk was scheduled, and
the set of sources force-stopped by an interrupt. -/
structure MessageResult where
  state : TVState
  startedAt : Option ℚ
  stopped : Finset ℕ
deriving DecidableEq

/-- Model of `onmessage` (App.tsx lines 430-477).  The four blocks run in source
order: input transcription accumulation (431-434), turn completion
(436-443), audio chunk scheduling (445-468), interrupt flush (470-476).
`now` is `Date.now()`, `currentTime` the output context playback clock,
`freshSource` the identity of the buffer source node created for the
chunk. -/
def onmessage (settings : AppSettings) (now : ℕ) (currentTime : ℚ)
    (freshSource : ℕ) (s0 : TVState) (msg : ServerMessage) : MessageResult :=
  let s1 := match msg.inputTranscription with
    | some t => { s0 with
        currentText := s0.currentText ++ t
        interimTranscript := s0.currentText ++ t }
    | none => s0
  let s2 := if msg.turnComplete then
      { s1 with
        transcripts := if isBlank s1.currentText then s1.transcripts
          else s1.transcripts ++ [{ id := now, speaker := "user", text := s1.currentText }]
        currentText := ""
        interimTranscript := "" }
    else s1
  let audio := match msg.audioData with
    | some duration =>
        let c := max s2.nextStartTime currentTime
        ({ s2 with
            nextStartTime := c + duration / settings.playbackRate
            audioSources := insert freshSource s2.audioSources },
         some c)
    | none => (s2, none)
  let s3 := audio.1
  if msg.interrupted then
    { state := { s3 with audioSources := ∅, nextStartTime := 0 }
      startedAt := audio.2
      stopped := s3.audioSources }
  else
    { state := s3, startedAt := audio.2, stopped := ∅ }

/-- Result of `handleSpeak`: the `isSpeaking` flag when the handler
settles (for a successful start, before the `onended` callback), the
alert flag, and whether playback was started. -/
structure SpeakResult where
  isSpeaking : Bool
  alerted : Bool
  played : Bool
deriving Repr, DecidableEq

/-- Model of `handleSpeak` (App.tsx lines 198-244).  `response` is the TTS
request outcome: `.error` when the request throws, otherwise the
optional base64 audio payload extracted from the response candidates
(`none` models an absent payload; the code tests JS truthiness, so the
empty string is treated like absence). -/
def handleSpeak (textToRead : String) (isSpeaking : Bool)
    (response : Except Unit (Option String)) : SpeakResult :=
  if isBlank textToRead ∨ isSpeaking then
    { isSpeaking := isSpeaking, alerted := false, played := false }
  else
    match response with
    | Except.error _ => { isSpeaking := false, alerted := true, played := false }
    | Except.ok none => { isSpeaking := false, alerted := false, played := false }
    | Except.ok (some b) =>
        if b = "" then { isSpeaking := false, alerted := false, played := false }
        else { isSpeaking := true, alerted := false, played := true }

/-- The dynamic shape `JSON.parse` can return for the analysis
response: `JSON.parse` enforces no schema, so each field of the
declared result shape may be absent. -/
structure ParsedAnalysis where
  correctedText : Option String
  explanation : Option String
  phonetics : Option String
deriving Repr, DecidableEq

/-- Result of `handleAnalyze`: pending flag, analysis state and alert
flag after the handler settles. -/
structure AnalyzeResult where
  isAnalyzing : Bool
  analysis : Option ParsedAnalysis
  alerted : Bool
deriving Repr, DecidableEq

/-- Model of `handleAnalyze` (App.tsx lines 154-196).  `response` is the
request outcome: `.error` when `generateContent` throws, otherwise
`response.text` (`none` for `undefined`).  `parse` is the environment's
`JSON.parse` applied to that text (`.error` when it throws).  The code
tests `if (resultText)`, so an empty string is skipped like `undefined`;
a parse failure lands in the catch block, which alerts; the `finally`
block always clears the pending flag. -/
def handleAnalyze (text : String) (response : Except Unit (Option String))
    (parse : String → Except Unit ParsedAnalysis) : AnalyzeResult :=
  if isBlank text then { isAnalyzing := false, analysis := none, alerted := false }
  else
    match response with
    | Except.error _ => { isAnalyzing := false, analysis := none, alerted := true }
    | Except.ok none => { isAnalyzing := false, analysis := none, alerted := false }
    | Except.ok (some resultText) =>
        if resultText = "" then { isAnalyzing := false, analysis := none, alerted := false }
        else
          match parse resultText with
          | Except.error _ => { isAnalyzing := false, analysis := none, alerted := true }
          | Except.ok parsed => { isAnalyzing := false, analysis := some parsed, alerted := false }

/-- One scheduling step of the playback scheduler (App.tsx lines 448,
465-466) for a chunk arriving at playback-clock time `t` with decoded
duration `d`: the cursor is pulled up to the clock, the chunk starts at
the updated cursor, and the cursor advances by `d / rate`.  Returns
`(startTime, newCursor)`. -/
def schedStep (rate c t d : ℚ) : ℚ × ℚ :=
  (max c t, max c t + d / rate)

/-- Iterated scheduling of a chunk sequence: each list element is an
`(arrival clock time, duration)` pair.  Returns the start times and the
final cursor. -/
def runSched (rate : ℚ) : ℚ → List (ℚ × ℚ) → List ℚ × ℚ
  | c, [] => ([], c)
  | c, td :: tds =>
      ((schedStep rate c td.1 td.2).1 :: (runSched rate (schedStep rate c td.1 td.2).2 tds).1,
       (runSched rate (schedStep rate c td.1 td.2).2 tds).2)

/-- Checks that each chunk arrives while the playback clock has not
passed the cursor (the premise under which the spec states the cursor
values). -/
def clockOk (rate : ℚ) : ℚ → List (ℚ × ℚ) → Bool
  | _, [] => true
  | c, td :: tds => decide (td.1 ≤ c) && clockOk rate (c + td.2 / rate) tds

/-- Checks that no start time precedes the computed end time
(start + duration / rate) of the preceding chunk. -/
def noEarlyStart (rate : ℚ) : List ℚ → List (ℚ × ℚ) → Bool
  | s1 :: s2 :: ss, td :: tds =>
      decide (s1 + td.2 / rate ≤ s2) && noEarlyStart rate (s2 :: ss) tds
  | _, _ => true

/-- An idle `TranslationView` state: no session, empty transcript. -/
def idle0 : TVState :=
  { isSessionActive := false
    transcripts := []
    interimTranscript := ""
    sessionPromise := none
    microphoneStream := none
    scriptProcessor := none
    inputAudioContext := none
    outputAudioContext := none
    nextStartTime := 0
    audioSources := ∅
    currentText := "" }

/-- Default settings fixture. -/
def settings0 : AppSettings := { theme := "light", volume := 1, playbackRate := 1 }

/-- An active `TranslationView` state with two playing chunks and a
pending utterance, used to exercise the message handler. -/
def active0 : TVState :=
  { isSessionActive := true
    transcripts := [{ id := 3, speaker := "user", text := "hi" }]
    interimTranscript := "hello"
    sessionPromise := some 1
    microphoneStream := some 2
    scriptProcessor := some 3
    inputAudioContext := some 4
    outputAudioContext := some 5
    nextStartTime := 2
    audioSources := {1, 2}
    currentText := "hello" }

/-- An `App` state whose durable record and React settings both carry
the light theme with default volume and rate. -/
def appLight : AppState :=
  { settings := { theme := "light", volume := 1, playbackRate := 1 }
    storage := some (Except.ok
      { theme := some "light", volume := some 1, playbackRate := some 1 }) }

lemma toInt16_eq_of_range (v : ℤ) (h1 : -32768 ≤ v) (h2 : v < 32768) :
    toInt16 v = v := by
  unfold toInt16; split <;> omega

lemma int16OfUint16_uint16OfInt16 (v : ℤ) (h1 : -32768 ≤ v) (h2 : v < 32768) :
    int16OfUint16 (uint16OfInt16 v) = v := by
  unfold int16OfUint16 uint16OfInt16; split <;> omega

lemma bytesToInt16sLE_int16sToBytesLE (l : List ℤ) :
    bytesToInt16sLE (int16sToBytesLE l) =
      l.map (fun v => int16OfUint16 (uint16OfInt16 v)) := by
  induction l with
  | nil => rfl
  | cons v rest ih =>
      simp only [int16sToBytesLE, bytesToInt16sLE, List.map_cons, ih]
      congr 1
      rw [Nat.mod_add_div]

lemma truncJS_bounds (y : ℚ) (h1 : -32768 ≤ y) (h2 : y < 32768) :
    -32768 ≤ truncJS y ∧ truncJS y < 32768 := by
  unfold truncJS
  split
  case isTrue h =>
    constructor
    · exact Int.le_floor.mpr (by exact_mod_cast h1)
    · exact Int.floor_lt.mpr (by exact_mod_cast h2)
  case isFalse h =>
    push_neg at h
    constructor
    · have hc : ((-32768 : ℤ) : ℚ) ≤ (⌈y⌉ : ℚ) := le_trans (by exact_mod_cast h1) (Int.le_ceil y)
      exact_mod_cast hc
    · have hc : ⌈y⌉ ≤ (0 : ℤ) := Int.ceil_le.mpr (by exact_mod_cast le_of_lt h)
      omega

lemma truncJS_err (y : ℚ) : |(y : ℚ) - (truncJS y : ℚ)| ≤ 1 := by
  unfold truncJS
  split
  case isTrue h =>
    rw [abs_le]
    constructor
    · have := Int.floor_le y
      linarith
    · have := Int.lt_floor_add_one y
      linarith
  case isFalse h =>
    rw [abs_le]
    constructor
    · have := Int.ceil_lt_add_one y
      linarith
    · have := Int.le_ceil y
      linarith

lemma sample_roundtrip (q : ℚ) (h1 : -1 ≤ q) (h2 : q < 1) :
    |((int16OfUint16 (uint16OfInt16 (sampleToInt16 q)) : ℤ) : ℚ) / 32768 - q| ≤ 1 / 32768 := by
  have hy1 : (-32768 : ℚ) ≤ q * 32768 := by linarith
  have hy2 : q * 32768 < 32768 := by linarith
  obtain ⟨hb1, hb2⟩ := truncJS_bounds (q * 32768) hy1 hy2
  have hwrap : sampleToInt16 q = truncJS (q * 32768) := toInt16_eq_of_range _ hb1 hb2
  rw [hwrap, int16OfUint16_uint16OfInt16 _ hb1 hb2]
  have herr := truncJS_err (q * 32768)
  rw [abs_le] at herr ⊢
  obtain ⟨he1, he2⟩ := herr
  constructor <;> linarith

lemma range_map_getD {α β : Type} (l : List α) (f : α → β) (d : α) :
    (List.range l.length).map (fun i => f (l.getD i d)) = l.map f := by
  induction l with
  | nil => rfl
  | cons a t ih =>
      rw [List.length_cons, List.range_succ_eq_map, List.map_cons, List.map_map]
      simp only [Function.comp_def, List.getD_cons_zero, List.getD_cons_succ]
      rw [ih]
      rfl

lemma map_getD_err (f : ℚ → ℚ) (eps : ℚ) (heps : 0 ≤ eps) :
    ∀ (x : List ℚ), (∀ q ∈ x, |f q - q| ≤ eps) →
      ∀ i : ℕ, |(x.map f).getD i 0 - x.getD i 0| ≤ eps := by
  intro x
  induction x with
  | nil => intro _ i; simpa using heps
  | cons a t ih =>
      intro h i
      cases i with
      | zero => simpa using h a (by simp)
      | succ j => simpa using ih (fun q hq => h q (by simp [hq])) j

lemma decode_createBlob_channels (x : List ℚ) (r : ℚ) :
    (decodeAudioData (createBlob x) r 1).channels =
      [x.map (fun q => ((int16OfUint16 (uint16OfInt16 (sampleToInt16 q)) : ℤ) : ℚ) / 32768)] := by
  unfold decodeAudioData createBlob
  rw [bytesToInt16sLE_int16sToBytesLE, List.map_map]
  simp only [List.length_map, Nat.div_one, List.range_succ, List.range_zero,
    List.nil_append, List.map_cons, List.map_nil, mul_one, add_zero, Function.comp_def]
  congr 1
  have h := range_map_getD (x.map (fun v => int16OfUint16 (uint16OfInt16 (sampleToInt16 v))))
      (fun v => ((v : ℤ) : ℚ) / 32768) (0 : ℤ)
  rw [List.length_map] at h
  rw [h, List.map_map]
  simp only [Function.comp_def]

/-- C1 (amended): for every float sample array whose samples lie in
`[-1, 1)` (the closed right endpoint 1 must be excluded, see the
counterexample), decoding the encoded form with the matching mono
channel count yields a single channel of the same length whose samples
differ from the input by at most `1/32768`, with the requested sample
rate carried through: no channel-order swap and no frame
misalignment. -/
theorem roundtrip_within_quantization (x : List ℚ)
    (h : ∀ q ∈ x, -1 ≤ q ∧ q < 1) :
    (decodeAudioData (createBlob x) 16000 1).sampleRate = 16000 ∧
    (decodeAudioData (createBlob x) 16000 1).channels.length = 1 ∧
    ((decodeAudioData (createBlob x) 16000 1).channels.getD 0 []).length = x.length ∧
    ∀ i : ℕ,
      |((decodeAudioData (createBlob x) 16000 1).channels.getD 0 []).getD i 0 - x.getD i 0|
        ≤ 1 / 32768 := by
  have hch := decode_createBlob_channels x 16000
  refine ⟨rfl, ?_, ?_, ?_⟩
  · rw [hch]; rfl
  · rw [hch]; simp
  · intro i
    rw [hch]
    simp only [List.getD_cons_zero]
    exact map_getD_err _ _ (by norm_num) x
      (fun q hq => sample_roundtrip q (h q hq).1 (h q hq).2) i

/-- C1 witness: the specification's own example, encoding then decoding
`[0.5, -0.5]`, recovers the samples within quantization tolerance. -/
theorem roundtrip_within_quantization_witness :
    ((-1 : ℚ) ≤ 1 / 2 ∧ (1 / 2 : ℚ) < 1) ∧
    (decodeAudioData (createBlob [1 / 2, -1 / 2]) 16000 1).channels.length = 1 ∧
    ((decodeAudioData (createBlob [(1 : ℚ) / 2, -1 / 2]) 16000 1).channels.getD 0 []).length = 2 ∧
    |((decodeAudioData (createBlob [(1 : ℚ) / 2, -1 / 2]) 16000 1).channels.getD 0 []).getD 0 0
        - 1 / 2| ≤ 1 / 32768 := by
  have h := roundtrip_within_quantization [1 / 2, -1 / 2]
    (by
      intro q hq
      simp only [List.mem_cons, List.not_mem_nil, or_false] at hq
      rcases hq with rfl | rfl <;> norm_num)
  exact ⟨by norm_num, h.2.1, h.2.2.1, by simpa using h.2.2.2 0⟩

/-- C1 counterexample: the sample `1.0` lies in the claim's range
`[-1, 1]`, but `createBlob` computes `1.0 * 32768 = 32768`, which the
`Int16Array` store wraps to `-32768`; the round trip returns `-1.0`,
an error of `2`, far above `1/32768`.  The claim as stated (closed
interval) is therefore false. -/
theorem roundtrip_fails_at_one :
    ((-1 : ℚ) ≤ 1 ∧ (1 : ℚ) ≤ 1) ∧
    ¬ |((decodeAudioData (createBlob [(1 : ℚ)]) 16000 1).channels.getD 0 []).getD 0 0 - 1|
        ≤ 1 / 32768 := by
  constructor
  · norm_num
  · have h1 : createBlob [(1 : ℚ)] = [0, 128] := by
      norm_num [createBlob, sampleToInt16, truncJS, toInt16, int16sToBytesLE, uint16OfInt16]
      omega
    rw [h1]
    norm_num [decodeAudioData, bytesToInt16sLE, int16OfUint16, List.range_succ]

/-- C2: the claim says every settings change is written to the durable
local record at the time of the change.  The source contains no
`localStorage.setItem` call at all, so the only settings mutation (the
theme toggle, App.tsx line 607) changes the React state while the
stored record keeps the stale value: after toggling from light to dark
the persisted record still says light.  The first conjunct shows no
settings change can ever write the record in this code. -/
theorem settings_change_not_persisted :
    (∀ s : AppState, (toggleTheme s).storage = s.storage) ∧
    (toggleTheme appLight).settings.theme = "dark" ∧
    (toggleTheme appLight).storage = some (Except.ok
      { theme := some "light", volume := some 1, playbackRate := some 1 }) := by
  refine ⟨fun s => rfl, ?_, rfl⟩
  simp [toggleTheme, appLight]

/-- C3 counterexample: on a start attempt from Idle whose microphone
acquisition fails, the first state update of `handleStartSession`
(App.tsx line 386) has already set the active-session flag while the
session ref is still null, so the flag is transiently true while no
session exists, contradicting the claim's "never". -/
theorem start_fail_flag_counterexample :
    ((handleStartSessionMicFail idle0).trace.getD 0 idle0).isSessionActive = true ∧
    ((handleStartSessionMicFail idle0).trace.getD 0 idle0).sessionPromise = none := by
  exact ⟨rfl, rfl⟩

/-- C3 (amended): on a start attempt whose microphone acquisition
fails, a user-facing alert is raised and the attempt ends back in Idle:
the final state has the active flag cleared, still no session, and only
the interim transcript, utterance buffer and cursor reset — though the
active flag is transiently set during the attempt (it is written
optimistically before acquisition). -/
theorem start_fail_returns_idle (s : TVState) (h : s.sessionPromise = none) :
    (handleStartSessionMicFail s).alerted = true ∧
    ((handleStartSessionMicFail s).trace.getD 1 s).isSessionActive = false ∧
    ((handleStartSessionMicFail s).trace.getD 1 s).sessionPromise = none ∧
    (handleStartSessionMicFail s).trace.getD 1 s =
      { s with isSessionActive := false, interimTranscript := ""
               currentText := "", nextStartTime := 0 } := by
  refine ⟨rfl, rfl, ?_, rfl⟩
  simpa using h

/-- C3 witness: the failing start attempt from the concrete idle state
alerts and lands back in an inactive, session-free state. -/
theorem start_fail_returns_idle_witness :
    (handleStartSessionMicFail idle0).alerted = true ∧
    ((handleStartSessionMicFail idle0).trace.getD 1 idle0).isSessionActive = false ∧
    ((handleStartSessionMicFail idle0).trace.getD 1 idle0).sessionPromise = none := by
  have h := start_fail_returns_idle idle0 rfl
  exact ⟨h.1, h.2.1, h.2.2.1⟩

/-- C9: invoking `handleStopSession` while the session ref is null hits
the early return (App.tsx line 362): the state is unchanged and no
teardown operation runs, so stopping an already-idle session is a
no-op, and stop is idempotent. -/
theorem stop_idle_noop (s : TVState) (h : s.sessionPromise = none) :
    handleStopSession s = { state := s, effects := [] } := by
  simp [handleStopSession, h]

/-- C9 witness: stopping the concrete idle state does nothing. -/
theorem stop_idle_noop_witness :
    handleStopSession idle0 = { state := idle0, effects := [] } :=
  stop_idle_noop idle0 rfl


/-- C10: no operation of the translation view ever clears the
committed transcript list.  Starting a session (the success path and
the failing path, both of which reset only the interim transcript,
utterance buffer and cursor) and stopping one leave the list exactly
unchanged, and a server message either leaves it unchanged or appends
exactly one entry. -/
theorem transcripts_persist (s : TVState) (streamId inCtx outCtx sessionId : ℕ)
    (settings : AppSettings) (now : ℕ) (currentTime : ℚ) (freshSource : ℕ)
    (msg : ServerMessage) :
    (handleStartSessionSuccess s streamId inCtx outCtx sessionId).transcripts = s.transcripts ∧
    ((handleStartSessionMicFail s).trace.map TVState.transcripts)
      = [s.transcripts, s.transcripts] ∧
    (handleStopSession s).state.transcripts = s.transcripts ∧
    ((onmessage settings now currentTime freshSource s msg).state.transcripts = s.transcripts ∨
      ∃ e : TranscriptEntry,
        (onmessage settings now currentTime freshSource s msg).state.transcripts
          = s.transcripts ++ [e]) := by
  refine ⟨rfl, rfl, ?_, ?_⟩
  · unfold handleStopSession
    split <;> rfl
  · obtain ⟨it, tc, ad, ir⟩ := msg
    unfold onmessage
    cases it <;> cases tc <;> cases ad <;> cases ir <;> simp <;>
      split <;> simp_all

/-- C6: whenever a server message carries the interrupt signal, the
interrupt block (App.tsx lines 470-476) force-stops every source in the
active-playback set (including one scheduled by the same message), the
active set ends empty, and the next-start-time cursor ends at zero —
for any number of previously active chunks. -/
theorem interrupt_flushes_all (settings : AppSettings) (now : ℕ) (currentTime : ℚ)
    (freshSource : ℕ) (s : TVState) (msg : ServerMessage)
    (h : msg.interrupted = true) :
    (onmessage settings now currentTime freshSource s msg).state.audioSources = ∅ ∧
    (onmessage settings now currentTime freshSource s msg).state.nextStartTime = 0 ∧
    s.audioSources ⊆ (onmessage settings now currentTime freshSource s msg).stopped := by
  obtain ⟨it, tc, ad, ir⟩ := msg
  simp only at h
  subst h
  unfold onmessage
  cases it <;> cases tc <;> cases ad <;>
    refine ⟨by simp, by simp, by simp [Finset.subset_insert]⟩

/-- C6 witness: an interrupt arriving while two chunks are active stops
both, empties the set and zeroes the cursor. -/
theorem interrupt_flushes_all_witness :
    (onmessage settings0 0 0 9 active0
        { inputTranscription := none, turnComplete := false
          audioData := none, interrupted := true }).state.audioSources = ∅ ∧
    (onmessage settings0 0 0 9 active0
        { inputTranscription := none, turnComplete := false
          audioData := none, interrupted := true }).state.nextStartTime = 0 ∧
    active0.audioSources ⊆ (onmessage settings0 0 0 9 active0
        { inputTranscription := none, turnComplete := false
          audioData := none, interrupted := true }).stopped :=
  interrupt_flushes_all settings0 0 0 9 active0
    { inputTranscription := none, turnComplete := false
      audioData := none, interrupted := true } rfl

/-- C8: a turn-complete signal (with no transcription fragment in the
same message) always clears the utterance buffer and the interim
transcript; it appends no transcript entry when the buffer is blank
after trimming, and appends exactly one entry carrying the buffered
utterance when it is not (App.tsx lines 436-443). -/
theorem turn_complete_commit (settings : AppSettings) (now : ℕ) (currentTime : ℚ)
    (freshSource : ℕ) (s : TVState) (msg : ServerMessage)
    (hit : msg.inputTranscription = none) (htc : msg.turnComplete = true) :
    (onmessage settings now currentTime freshSource s msg).state.currentText = "" ∧
    (onmessage settings now currentTime freshSource s msg).state.interimTranscript = "" ∧
    (isBlank s.currentText = true →
      (onmessage settings now currentTime freshSource s msg).state.transcripts
        = s.transcripts) ∧
    (isBlank s.currentText = false →
      (onmessage settings now currentTime freshSource s msg).state.transcripts
        = s.transcripts ++ [{ id := now, speaker := "user", text := s.currentText }]) := by
  obtain ⟨it, tc, ad, ir⟩ := msg
  simp only at hit htc
  subst hit
  subst htc
  unfold onmessage
  cases ad <;> cases ir <;>
    exact ⟨by simp, by simp, fun h => by simp [h], fun h => by simp [h]⟩

/-- C8 witness: a turn-complete signal with the buffered utterance
"hello" appends exactly one entry carrying it and clears the buffer,
from a state already holding one committed entry. -/
theorem turn_complete_commit_witness :
    (onmessage settings0 7 0 9 active0
        { inputTranscription := none, turnComplete := true
          audioData := none, interrupted := false }).state.currentText = "" ∧
    (onmessage settings0 7 0 9 active0
        { inputTranscription := none, turnComplete := true
          audioData := none, interrupted := false }).state.transcripts
      = [{ id := 3, speaker := "user", text := "hi" },
         { id := 7, speaker := "user", text := "hello" }] := by
  have h := turn_complete_commit settings0 7 0 9 active0
    { inputTranscription := none, turnComplete := true
      audioData := none, interrupted := false } rfl rfl
  refine ⟨h.1, ?_⟩
  have h2 := h.2.2.2 (by decide)
  simpa [active0] using h2

/-- C4 counterexample: a TTS response that succeeds but carries no
audio payload takes the `else` branch at App.tsx lines 236-238, which
only resets `isSpeaking` and raises no alert — contradicting the
claim that every missing-payload response raises a user-visible
alert. -/
theorem speak_missing_audio_counterexample :
    (handleSpeak "hello" false (Except.ok none)).alerted = false ∧
    (handleSpeak "hello" false (Except.ok none)).isSpeaking = false := by
  exact ⟨by decide, by decide⟩

/-- C4 (amended): when the speech-synthesis request throws, an alert is
raised and the playback flag is reset; when the request succeeds but
the response carries no audio payload (absent or empty), the playback
flag is reset so the control is usable again, but no alert is
raised. -/
theorem speak_failure_paths (textToRead : String)
    (h : isBlank textToRead = false) :
    handleSpeak textToRead false (Except.error ())
      = { isSpeaking := false, alerted := true, played := false } ∧
    handleSpeak textToRead false (Except.ok none)
      = { isSpeaking := false, alerted := false, played := false } ∧
    handleSpeak textToRead false (Except.ok (some ""))
      = { isSpeaking := false, alerted := false, played := false } := by
  refine ⟨?_, ?_, ?_⟩ <;> simp [handleSpeak, h]

/-- C4 witness: the two failure modes at the concrete text "hello". -/
theorem speak_failure_paths_witness :
    (handleSpeak "hello" false (Except.error ())).alerted = true ∧
    (handleSpeak "hello" false (Except.error ())).isSpeaking = false ∧
    (handleSpeak "hello" false (Except.ok none)).alerted = false :=
  have h := speak_failure_paths "hello" (by decide)
  ⟨by rw [h.1], by rw [h.1], by rw [h.2.1]⟩

/-- C5 counterexample: an analysis response whose text is empty takes
the falsy branch of `if (resultText)` (App.tsx line 187): no alert is
raised, so the user is not informed, contradicting the claim; and a
response that parses to an object missing required fields is stored
as-is (line 188 performs no schema check), so a partial analysis is
shown, also contradicting the claim. -/
theorem analyze_counterexample :
    (handleAnalyze "hola" (Except.ok (some "")) (fun _ => Except.error ())).alerted = false ∧
    (handleAnalyze "hola" (Except.ok (some "x"))
        (fun _ => Except.ok { correctedText := some "hi", explanation := none
                              phonetics := none })).analysis ≠ none := by
  exact ⟨by decide, by decide⟩

/-- C5 (amended): when the analysis request throws, or its response
text fails JSON parsing, an alert is raised, the analysis state stays
null and the pending flag returns to false; when the response carries
no text or empty text, the analysis state stays null and the pending
flag returns to false but no alert is raised; a response that parses
successfully is stored even when fields of the declared schema are
missing.  In every case the pending flag ends false. -/
theorem analyze_failure_paths (text resultText : String)
    (parse : String → Except Unit ParsedAnalysis) (parsed : ParsedAnalysis)
    (htext : isBlank text = false) (hres : resultText ≠ "") :
    handleAnalyze text (Except.error ()) parse
      = { isAnalyzing := false, analysis := none, alerted := true } ∧
    handleAnalyze text (Except.ok none) parse
      = { isAnalyzing := false, analysis := none, alerted := false } ∧
    handleAnalyze text (Except.ok (some "")) parse
      = { isAnalyzing := false, analysis := none, alerted := false } ∧
    handleAnalyze text (Except.ok (some resultText)) (fun _ => Except.error ())
      = { isAnalyzing := false, analysis := none, alerted := true } ∧
    handleAnalyze text (Except.ok (some resultText)) (fun _ => Except.ok parsed)
      = { isAnalyzing := false, analysis := some parsed, alerted := false } := by
  refine ⟨?_, ?_, ?_, ?_, ?_⟩ <;> simp [handleAnalyze, htext, hres]

/-- C5 witness: the five response shapes at the concrete text "hola". -/
theorem analyze_failure_paths_witness :
    (handleAnalyze "hola" (Except.error ()) (fun _ => Except.error ())).alerted = true ∧
    (handleAnalyze "hola" (Except.error ()) (fun _ => Except.error ())).isAnalyzing = false ∧
    (handleAnalyze "hola" (Except.ok (some "x"))
        (fun _ => Except.ok { correctedText := some "c", explanation := some "e"
                              phonetics := some "p" })).analysis
      = some { correctedText := some "c", explanation := some "e", phonetics := some "p" } :=
  have h := analyze_failure_paths "hola" "x" (fun _ => Except.error ())
    { correctedText := some "c", explanation := some "e", phonetics := some "p" }
    (by decide) (by decide)
  ⟨by rw [h.1], by rw [h.1], by rw [h.2.2.2.2]⟩

lemma clockOk_take (rate : ℚ) :
    ∀ (l : List (ℚ × ℚ)) (c : ℚ) (k : ℕ), clockOk rate c l = true →
      clockOk rate c (l.take k) = true := by
  intro l
  induction l with
  | nil => intro c k _; simp [clockOk, List.take_nil]
  | cons td tds ih =>
      intro c k h
      cases k with
      | zero => simp [clockOk]
      | succ j =>
          rw [List.take_succ_cons]
          unfold clockOk at h ⊢
          rw [Bool.and_eq_true] at h ⊢
          exact ⟨h.1, ih _ j h.2⟩

lemma runSched_cursor (rate : ℚ) :
    ∀ (l : List (ℚ × ℚ)) (c : ℚ), clockOk rate c l = true →
      (runSched rate c l).2 = c + (l.map Prod.snd).sum / rate := by
  intro l
  induction l with
  | nil => intro c _; simp [runSched]
  | cons td tds ih =>
      intro c h
      unfold clockOk at h
      rw [Bool.and_eq_true, decide_eq_true_eq] at h
      show (runSched rate (schedStep rate c td.1 td.2).2 tds).2 = _
      rw [ih _ ?hc]
      case hc =>
        have : (schedStep rate c td.1 td.2).2 = c + td.2 / rate := by
          unfold schedStep
          rw [max_eq_left h.1]
        rw [this]
        exact h.2
      unfold schedStep
      rw [max_eq_left h.1]
      simp only [List.map_cons, List.sum_cons, add_div]
      ring

lemma runSched_starts (rate : ℚ) :
    ∀ (l : List (ℚ × ℚ)) (c : ℚ),
      (runSched rate c l).1 = (List.range l.length).map
        (fun i => max ((runSched rate c (l.take i)).2) ((l.getD i (0, 0)).1)) := by
  intro l
  induction l with
  | nil => intro c; simp [runSched]
  | cons td tds ih =>
      intro c
      rw [List.length_cons, List.range_succ_eq_map, List.map_cons, List.map_map]
      show (schedStep rate c td.1 td.2).1
          :: (runSched rate (schedStep rate c td.1 td.2).2 tds).1 = _
      congr 1
      rw [ih ((schedStep rate c td.1 td.2).2)]
      congr 1

lemma noEarlyStart_runSched (rate : ℚ) :
    ∀ (l : List (ℚ × ℚ)) (c : ℚ), noEarlyStart rate (runSched rate c l).1 l = true := by
  intro l
  induction l with
  | nil => intro c; rfl
  | cons td tds ih =>
      intro c
      cases tds with
      | nil => rfl
      | cons td2 tds2 =>
          show noEarlyStart rate
            ((schedStep rate c td.1 td.2).1
              :: (schedStep rate (schedStep rate c td.1 td.2).2 td2.1 td2.2).1
              :: (runSched rate
                  (schedStep rate (schedStep rate c td.1 td.2).2 td2.1 td2.2).2 tds2).1)
            (td :: td2 :: tds2) = true
          unfold noEarlyStart
          rw [Bool.and_eq_true, decide_eq_true_eq]
          constructor
          · show (schedStep rate c td.1 td.2).1 + td.2 / rate
              ≤ (schedStep rate (schedStep rate c td.1 td.2).2 td2.1 td2.2).1
            unfold schedStep
            exact le_max_left _ _
          · exact ih ((schedStep rate c td.1 td.2).2)

/-- C7: scheduling chunks of durations `d1..dn` at rate `r` with the
cursor starting at 0, while the playback clock never passes the cursor,
the cursor after chunk `i` equals `(d1+...+di)/r`; every chunk is
scheduled to start at `max(cursor, current playback time)` (the formula
of App.tsx lines 448/465); and no chunk's start time precedes the
previous chunk's computed end time. -/
theorem sched_cursor_gapless (rate : ℚ) (chunks : List (ℚ × ℚ))
    (hrate : 0 < rate) (hclock : clockOk rate 0 chunks = true) :
    (∀ k : ℕ, (runSched rate 0 (chunks.take k)).2
        = ((chunks.take k).map Prod.snd).sum / rate) ∧
    (runSched rate 0 chunks).1 = (List.range chunks.length).map
      (fun i => max ((runSched rate 0 (chunks.take i)).2) ((chunks.getD i (0, 0)).1)) ∧
    noEarlyStart rate (runSched rate 0 chunks).1 chunks = true := by
  refine ⟨?_, runSched_starts rate chunks 0, noEarlyStart_runSched rate chunks 0⟩
  intro k
  rw [runSched_cursor rate (chunks.take k) 0 (clockOk_take rate chunks 0 k hclock)]
  rw [zero_add]

/-- C7 witness: the specification's example — two chunks of durations
1s and 2s at rate 1 from cursor 0 yield cursor values 1 and then 3,
with no early start. -/
theorem sched_cursor_gapless_witness :
    (runSched 1 0 ([((0 : ℚ), (1 : ℚ)), (0, 2)].take 1)).2 = 1 ∧
    (runSched 1 0 ([((0 : ℚ), (1 : ℚ)), (0, 2)].take 2)).2 = 3 ∧
    noEarlyStart 1 (runSched 1 0 [((0 : ℚ), (1 : ℚ)), (0, 2)]).1
      [((0 : ℚ), (1 : ℚ)), (0, 2)] = true := by
  have h := sched_cursor_gapless 1 [((0 : ℚ), (1 : ℚ)), (0, 2)]
    (by norm_num) (by norm_num [clockOk])
  refine ⟨?_, ?_, h.2.2⟩
  · have h1 := h.1 1
    norm_num [List.take] at h1
    exact h1
  · have h2 := h.1 2
    norm_num [List.take] at h2
    exact h2

/-- Bridging fact: the audio block of `onmessage` performs exactly one
`schedStep` on the cursor, so the iterated scheduler model `runSched`
is the repeated audio block of the message handler. -/
lemma onmessage_audio_schedStep (settings : AppSettings) (now : ℕ) (currentTime : ℚ)
    (freshSource : ℕ) (s : TVState) (d : ℚ) :
    (onmessage settings now currentTime freshSource s
        { inputTranscription := none, turnComplete := false
          audioData := some d, interrupted := false }).state.nextStartTime
      = (schedStep settings.playbackRate s.nextStartTime currentTime d).2 ∧
    (onmessage settings now currentTime freshSource s
        { inputTranscription := none, turnComplete := false
          audioData := some d, interrupted := false }).startedAt
      = some (schedStep settings.playbackRate s.nextStartTime currentTime d).1 :=
  ⟨rfl, rfl⟩
